import Mathlib

/-!
Shallow embedding of the exam-bank core of `src/index.py`:
the heuristic bank parser `read_questions_from_file` (with its inner
helpers `clean_opt` and `split_combined_options`), the reference text
renderer `format_question`, and the stratified version generator
`generate_versions`.

Python strings are modelled as Lean `String`s; the Python string
primitives used by the source (`strip`, `upper`, `split`, `join`,
`startswith`, substring tests, and the three anchored regular
expressions) are modelled by explicit functions over `List Char`
below, with ASCII whitespace semantics.  `random.shuffle` is modelled
by an oracle (one arbitrary list transformer per call site, indexed by
a running call counter); the predicate `IsShuffler` restricts the
oracle to permutations, which is exactly the set of behaviours
`random.shuffle` can produce.  File I/O is modelled by an
`Except String String` argument: `Except.error` is a failed
`open`/`read`, `Except.ok content` is a successful read.
-/

/-- ASCII model of Python's default `str.strip` whitespace class. -/
def isPySpace (c : Char) : Bool :=
  c == ' ' || c == '\t' || c == '\n' || c == '\r' || c == '\x0b' || c == '\x0c'

def pyStripList (l : List Char) : List Char :=
  ((l.dropWhile isPySpace).reverse.dropWhile isPySpace).reverse

/-- Python `s.strip()`. -/
def pyStrip (s : String) : String := String.mk (pyStripList s.data)

/-- Python `s.rstrip(chars)`. -/
def pyRstripSet (cs : List Char) (s : String) : String :=
  String.mk ((s.data.reverse.dropWhile (fun c => cs.contains c)).reverse)

/-- Python `s.upper()` (ASCII letters). -/
def pyUpper (s : String) : String := String.mk (s.data.map Char.toUpper)

/-- Python `s.startswith(p)`. -/
def strStartsWith (p s : String) : Bool := p.data.isPrefixOf s.data

def hasSubstrAux (nd : List Char) : List Char → Bool
  | [] => nd.isEmpty
  | c :: rest => nd.isPrefixOf (c :: rest) || hasSubstrAux nd rest

/-- Python `needle in s` on strings. -/
def hasSubstr (needle s : String) : Bool := hasSubstrAux needle.data s.data

def splitOnCharAux (sep : Char) : List Char → List Char → List String
  | acc, [] => [String.mk acc.reverse]
  | acc, c :: rest =>
    if c == sep then String.mk acc.reverse :: splitOnCharAux sep [] rest
    else splitOnCharAux sep (c :: acc) rest

/-- Python `s.split(sep)` for a one-character separator. -/
def splitOnChar (sep : Char) (s : String) : List String := splitOnCharAux sep [] s.data

def beforeFirstAux (nd : List Char) : List Char → List Char → List Char
  | acc, [] => acc.reverse
  | acc, c :: rest =>
    if nd.isPrefixOf (c :: rest) then acc.reverse
    else beforeFirstAux nd (c :: acc) rest

/-- Python `s.split(needle)[0]`: the prefix before the first occurrence. -/
def beforeFirst (needle s : String) : String := String.mk (beforeFirstAux needle.data [] s.data)

/-- Python `sep.join(parts)`. -/
def joinSep (sep : String) : List String → String
  | [] => ""
  | [x] => x
  | x :: y :: rest => x ++ sep ++ joinSep sep (y :: rest)

/-- The opening curly bracket character. -/
def lbrace : Char := Char.ofNat 123

/-- The closing curly bracket character. -/
def rbrace : Char := Char.ofNat 125

/-- The character class `[A-Da-d]`. -/
def isADletter (c : Char) : Bool := ['A', 'B', 'C', 'D', 'a', 'b', 'c', 'd'].contains c

/-- The single substitution of `re.sub(r'^[A-Da-d]\s*[\.|\)]\s*', '', s)`:
an option-label letter, optional spaces, one of `.`, `|`, `)`, optional
spaces, removed from the front when present. -/
def stripLeadingLabel (l : List Char) : List Char :=
  match l with
  | [] => []
  | c :: rest =>
    if isADletter c then
      match rest.dropWhile isPySpace with
      | d :: r2 =>
        if d == '.' || d == '|' || d == ')' then r2.dropWhile isPySpace
        else c :: rest
      | [] => c :: rest
    else c :: rest

/-- `clean_opt` from `read_questions_from_file`: trim, strip one layer of
surrounding curly brackets, strip a leading option label, trim again. -/
def clean_opt (s : String) : String :=
  let s1 := pyStrip s
  let s2 :=
    if s1.data.head? = some lbrace ∧ s1.data.getLast? = some rbrace then
      pyStrip (String.mk ((s1.data.drop 1).dropLast))
    else s1
  pyStrip (String.mk (stripLeadingLabel s2.data))

/-- The delimiter class of `re.split(r';|\||,', s)`. -/
def isCombDelim (c : Char) : Bool := c == ';' || c == '|' || c == ','

def splitDelimsAux : List Char → List Char → List String
  | acc, [] => [String.mk acc.reverse]
  | acc, c :: rest =>
    if isCombDelim c then String.mk acc.reverse :: splitDelimsAux [] rest
    else splitDelimsAux (c :: acc) rest

/-- `re.split(r';|\||,', s)`. -/
def splitCombinedRaw (s : String) : List String := splitDelimsAux [] s.data

/-- `split_combined_options` from `read_questions_from_file`. -/
def split_combined_options (s : String) : List String :=
  ((splitCombinedRaw s).filter (fun p => pyStrip p != "")).map clean_opt

/-- `re.match(r'^[A-Da-d]$', s)`: the string is exactly one option letter. -/
def isSingleAD (s : String) : Bool :=
  match s.data with
  | [c] => isADletter c
  | _ => false

/-- `re.search(r'\|?\s*([A-Da-d])\s*$', line)`: since `\|?` and `\s*` may be
empty, the search succeeds exactly when the last non-whitespace character of
the line is an option letter; the code then upper-cases the captured group. -/
def lineTailLetter (line : String) : Option Char :=
  match line.data.reverse.dropWhile isPySpace with
  | c :: _ => if isADletter c then some c.toUpper else none
  | [] => none

/-- `for i in range(min(4, len(found))): opts[i] = found[i]` applied to the
initial `['', '', '', '']`. -/
def fillOpts (found : List String) : List String :=
  found.take 4 ++ List.replicate (4 - found.length) ""

/-- One parsed bank entry (the dict built by `read_questions_from_file`);
`qtype` is the `type` key. -/
structure Question where
  id : String
  level : String
  qtype : String
  subject : String
  question : String
  options : List String
  answer : String
  hint : String
deriving DecidableEq

/-- Python `f"{n:03d}"`. -/
def pad3 (n : Nat) : String :=
  if n < 10 then "00" ++ toString n
  else if n < 100 then "0" ++ toString n
  else toString n

/-- `f"MANUAL{len(questions)+1:03d}"` where `n` records already exist. -/
def manualId (n : Nat) : String := "MANUAL" ++ pad3 (n + 1)

/-- MCQ/ESSAY classification of a manual line from its body markers. -/
def classifyManual (qt : String) : String :=
  if hasSubstr "A." qt || hasSubstr "B." qt || hasSubstr "C." qt || hasSubstr "D." qt then "MCQ"
  else "ESSAY"

/-- `'ESSAY' if 'ESSAY' in raw or 'TL' in raw else 'MCQ'`. -/
def resolveType (raw : String) : String :=
  if hasSubstr "ESSAY" raw || hasSubstr "TL" raw then "ESSAY" else "MCQ"

/-- The free-form "manual" fallback branch of the per-line loop, reached for
lines that do not start with `Q` and contain no separator; `n` is the number
of records parsed so far. -/
def manualRecord (n : Nat) (line : String) : Option Question :=
  if line.data.contains '(' && line.data.contains ')' then
    let levelPart := pyUpper (pyStrip (beforeFirst ")" ((splitOnChar '(' line).getD 1 "")))
    let questionText :=
      pyRstripSet [' ', '–', '-'] (pyStrip (beforeFirst "(đáp án" ((splitOnChar ')' line).getD 1 "")))
    some {
      id := manualId n
      level := levelPart
      qtype := classifyManual questionText
      subject := "Chưa xác định"
      question := questionText
      options := ["", "", "", ""]
      answer := ""
      hint := "" }
  else none

/-- The MCQ tail interpretation of a structured line: the explicit four-field
case, then the combined-field fallback; returns `(options, answer, hint)`. -/
def mcqTail (tail : List String) (line : String) : List String × String × String :=
  if tail.length ≥ 4 ∧ (tail.take 4).any (fun s => s != "") = true then
    ((tail.take 4).map clean_opt,
     if tail.length ≥ 5 ∧ pyStrip (tail.getD 4 "") ≠ "" then pyStrip (tail.getD 4 "") else "",
     if tail.length ≥ 6 then pyStrip (joinSep " " (tail.drop 5)) else "")
  else if tail.isEmpty then (["", "", "", ""], "", "")
  else
    let lastTok := pyStrip (tail.getLastD "")
    let answer0 := if isSingleAD lastTok then pyUpper lastTok else ""
    let optSource :=
      if isSingleAD lastTok then joinSep " | " tail.dropLast else joinSep " | " tail
    let foundOpts := split_combined_options optSource
    let opts := fillOpts foundOpts
    let answer1 :=
      if answer0 = "" then
        let scanned :=
          match tail.find? (fun t => isSingleAD (pyStrip t)) with
          | some t => pyUpper (pyStrip t)
          | none => ""
        match lineTailLetter line with
        | some c => String.mk [c]
        | none => scanned
      else answer0
    let hint0 :=
      if foundOpts.length < (split_combined_options optSource).length then "" else ""
    let hint1 :=
      if hint0 = "" ∧ tail.length > (if answer1 ≠ "" then 1 else 0) then
        pyStrip (if answer1 = "" then tail.getLastD "" else joinSep " " (tail.drop 1))
      else hint0
    (opts, answer1, hint1)

/-- The structured-line branch of the per-line loop: split on `|`, skip when
fewer than 5 fields, then build the record. -/
def structuredRecord (line : String) : Option Question :=
  let parts := splitOnChar '|' line
  if parts.length < 5 then none
  else
    let qid := pyStrip (parts.getD 0 "")
    let level := pyUpper (pyStrip (parts.getD 1 ""))
    let rawType := pyUpper (pyStrip (parts.getD 2 ""))
    let subject := pyStrip (parts.getD 3 "")
    let questionText := pyStrip (parts.getD 4 "")
    let qtype := resolveType rawType
    let tail := parts.drop 5
    if qtype = "MCQ" then
      some {
        id := qid
        level := level
        qtype := qtype
        subject := subject
        question := questionText
        options := (mcqTail tail line).1
        answer := (mcqTail tail line).2.1
        hint := (mcqTail tail line).2.2 }
    else
      some {
        id := qid
        level := level
        qtype := qtype
        subject := subject
        question := questionText
        options := ["", "", "", ""]
        answer := ""
        hint := pyStrip (joinSep " " tail) }

/-- One iteration of the per-line loop of `read_questions_from_file`;
`n` is the number of records accumulated so far. -/
def lineRecord (n : Nat) (line : String) : Option Question :=
  if strStartsWith "Q" line = false ∧ line.data.contains '|' = false then manualRecord n line
  else structuredRecord line

def parseLines : Nat → List String → List Question
  | _, [] => []
  | n, line :: rest =>
    match lineRecord n line with
    | some q => q :: parseLines (n + 1) rest
    | none => parseLines n rest

/-- `[line.strip() for line in content.strip().split('\n') if line.strip()]`. -/
def prepLines (content : String) : List String :=
  ((splitOnChar '\n' (pyStrip content)).map pyStrip).filter (fun l => l != "")

def parseContent (content : String) : List Question := parseLines 0 (prepLines content)

/-- `read_questions_from_file`: on an I/O failure the exception is caught,
reported through a message box / print side effect, and the accumulated
(empty) list is returned; on success the content is parsed line by line. -/
def read_questions_from_file : Except String String → List Question
  | Except.error _ => []
  | Except.ok content => parseContent content

/-- The lines built by `format_question` before joining with newlines. -/
def optionLines (opts : List String) : List String :=
  (opts.enum.filter (fun p => pyStrip p.2 != "")).map
    (fun p => "  " ++ String.mk [Char.ofNat (65 + p.1)] ++ ". " ++ p.2)

def formatLines (q : Question) (index : Nat) (show_answers show_hints : Bool) : List String :=
  let header := "Câu " ++ toString index ++ ": [" ++ q.level ++ "] " ++ q.question
  let optBlock :=
    if q.qtype = "MCQ" ∧ q.options.any (fun s => s != "") = true then
      optionLines q.options ++
        (if show_answers = true ∧ q.answer ≠ "" then ["  Đáp án: " ++ q.answer] else [])
    else []
  let hintBlock := if show_hints = true ∧ q.hint ≠ "" then ["  Gợi ý: " ++ q.hint] else []
  header :: (optBlock ++ hintBlock)

/-- `format_question`. -/
def format_question (q : Question) (index : Nat) (show_answers show_hints : Bool) : String :=
  joinSep "\n" (formatLines q index show_answers show_hints)

/-- Level normalisation done by `generate_versions` when bucketing
(`if lev not in bank: lev = 'NB'`). -/
def normLevel (q : Question) : String :=
  if ["NB", "TH", "VD", "VDH"].contains q.level then q.level else "NB"

/-- Type normalisation done by `generate_versions` when bucketing
(`q['type'] if q['type'] in ['MCQ', 'ESSAY'] else 'ESSAY'`). -/
def normType (q : Question) : String :=
  if q.qtype = "MCQ" ∨ q.qtype = "ESSAY" then q.qtype else "ESSAY"

/-- The `(level, type)` bucket of the bank dictionary, in input order. -/
def bankOf (qs : List Question) (lev typ : String) : List Question :=
  qs.filter (fun q => normLevel q == lev && normType q == typ)

def levelOrder : List String := ["NB", "TH", "VD", "VDH"]

/-- Shuffle oracle: the result of the `i`-th `random.shuffle` call. -/
def Shuffler := Nat → List Question → List Question

/-- The oracle only produces permutations — exactly the behaviours of
`random.shuffle`. -/
def IsShuffler (sh : Shuffler) : Prop := ∀ i l, (sh i l).Perm l

/-- The mutable loop state of one version generation. -/
structure GenState where
  selected : List Question
  remainMcq : Nat
  remainEssay : Nat
  ctr : Nat

/-- One iteration of the per-level allocation pass of `generate_versions`. -/
def allocLevel (bank : String → String → List Question) (sh : Shuffler)
    (reqLevel : String → Nat) (st : GenState) (lev : String) : GenState :=
  if reqLevel lev = 0 then st
  else
    let mcqPool := sh st.ctr (bank lev "MCQ")
    let essayPool := sh (st.ctr + 1) (bank lev "ESSAY")
    let takeMcq := min (reqLevel lev) (min st.remainMcq mcqPool.length)
    let takeEssay := min (reqLevel lev - takeMcq) (min st.remainEssay essayPool.length)
    { selected := st.selected ++ mcqPool.take takeMcq ++ essayPool.take takeEssay
      remainMcq := st.remainMcq - takeMcq
      remainEssay := st.remainEssay - takeEssay
      ctr := st.ctr + 2 }

/-- `[q for lev in bank for q in bank[lev][typ]]`. -/
def allPool (bank : String → String → List Question) (typ : String) : List Question :=
  levelOrder.foldr (fun lev acc => bank lev typ ++ acc) []

/-- One version: per-level allocation, backfill from the union pools, final
shuffle; also returns the advanced shuffle-call counter. -/
def genOne (bank : String → String → List Question) (sh : Shuffler)
    (reqLevel : String → Nat) (reqMcq reqEssay c0 : Nat) : List Question × Nat :=
  let st := levelOrder.foldl (allocLevel bank sh reqLevel) ⟨[], reqMcq, reqEssay, c0⟩
  let allMcq := sh st.ctr (allPool bank "MCQ")
  let allEssay := sh (st.ctr + 1) (allPool bank "ESSAY")
  (sh (st.ctr + 2) (st.selected ++ allMcq.take st.remainMcq ++ allEssay.take st.remainEssay),
   st.ctr + 3)

def genManyAux (bank : String → String → List Question) (sh : Shuffler)
    (reqLevel : String → Nat) (reqMcq reqEssay : Nat) : Nat → Nat → List (List Question)
  | 0, _ => []
  | Nat.succ k, c =>
    (genOne bank sh reqLevel reqMcq reqEssay c).1 ::
      genManyAux bank sh reqLevel reqMcq reqEssay k (genOne bank sh reqLevel reqMcq reqEssay c).2

/-- `generate_versions(questions, N, req_level, req_mcq, req_essay)`. -/
def generate_versions (qs : List Question) (N : Nat) (reqLevel : String → Nat)
    (reqMcq reqEssay : Nat) (sh : Shuffler) : List (List Question) :=
  genManyAux (bankOf qs) sh reqLevel reqMcq reqEssay N 0

/-- Number of entries of type MCQ in a version. -/
def mcqCount (l : List Question) : Nat := l.countP (fun q => q.qtype == "MCQ")

/-- Number of entries of type ESSAY in a version. -/
def essayCount (l : List Question) : Nat := l.countP (fun q => q.qtype == "ESSAY")

/-- A shuffle oracle that happens to leave every list unchanged — one
possible outcome of `random.shuffle`. -/
def idShuffler : Shuffler := fun _ l => l

/-- Per-level quota asking for one NB question and nothing else. -/
def reqLevelNB1 : String → Nat := fun lev => if lev = "NB" then 1 else 0

/-- Sample bank records used in concrete evaluations. -/
def qA : Question :=
  ⟨"QA1", "NB", "MCQ", "S", "first?", ["x", "y", "z", "w"], "A", ""⟩

def qB : Question :=
  ⟨"QA2", "NB", "MCQ", "S", "second?", ["x", "y", "z", "w"], "B", ""⟩

def qE : Question :=
  ⟨"QE1", "NB", "ESSAY", "S", "essay?", ["", "", "", ""], "", ""⟩

/-- The record parsed from the line `Q7|NB|MCQ|M|Hi`. -/
def qW : Question := ⟨"Q7", "NB", "MCQ", "M", "Hi", ["", "", "", ""], "", ""⟩

/-- The record parsed from the manual line `(NB) Hi`. -/
def rW : Question :=
  ⟨"MANUAL001", "NB", "ESSAY", "Chưa xác định", "Hi", ["", "", "", ""], "", ""⟩

/-- An MCQ record whose four option slots are all empty but whose answer
and hint are set. -/
def qX : Question := ⟨"Q9", "NB", "MCQ", "S", "Body?", ["", "", "", ""], "A", "h"⟩

/-- Invariant of the generation loop: the questions of each type selected so
far plus the still-outstanding quota never exceed the requested quota. -/
def QuotaInv (M E : Nat) (st : GenState) : Prop :=
  mcqCount st.selected + st.remainMcq ≤ M ∧ essayCount st.selected + st.remainEssay ≤ E

/-! ## Helper lemmas -/

theorem mk_cons_ne_empty (c : Char) (l : List Char) : String.mk (c :: l) ≠ "" := by
  intro h
  have h2 : c :: l = ([] : List Char) := congrArg String.data h
  exact absurd h2 (by simp)

theorem manualId_ne_empty (n : Nat) : manualId n ≠ "" := by
  intro h
  have h3 : (manualId n).data = ("" : String).data := congrArg String.data h
  simp only [manualId, String.data_append] at h3
  have h4 : ("MANUAL".data ++ (pad3 (n + 1)).data : List Char) = [] := h3
  exact absurd (List.append_eq_nil.mp h4).1 (by decide)

theorem resolveType_cases (raw : String) : resolveType raw = "MCQ" ∨ resolveType raw = "ESSAY" := by
  unfold resolveType
  split
  · exact Or.inr rfl
  · exact Or.inl rfl

theorem classifyManual_cases (qt : String) :
    classifyManual qt = "MCQ" ∨ classifyManual qt = "ESSAY" := by
  unfold classifyManual
  split
  · exact Or.inl rfl
  · exact Or.inr rfl

theorem lineRecord_qtype {n : Nat} {line : String} {q : Question}
    (h : lineRecord n line = some q) : q.qtype = "MCQ" ∨ q.qtype = "ESSAY" := by
  unfold lineRecord at h
  split at h
  · simp only [manualRecord] at h
    split at h
    · injection h with h2
      subst h2
      exact classifyManual_cases _
    · exact Option.noConfusion h
  · simp only [structuredRecord] at h
    split at h
    · exact Option.noConfusion h
    · split at h
      · injection h with h2
        subst h2
        exact resolveType_cases _
      · injection h with h2
        subst h2
        exact resolveType_cases _

theorem lineRecord_id {n : Nat} {line : String} {q : Question}
    (h : lineRecord n line = some q) :
    q.id ≠ "" ∨ pyStrip ((splitOnChar '|' line).getD 0 "") = "" := by
  unfold lineRecord at h
  split at h
  · simp only [manualRecord] at h
    split at h
    · injection h with h2
      subst h2
      exact Or.inl (manualId_ne_empty n)
    · exact Option.noConfusion h
  · simp only [structuredRecord] at h
    split at h
    · exact Option.noConfusion h
    · by_cases hz : pyStrip ((splitOnChar '|' line).getD 0 "") = ""
      · exact Or.inr hz
      · split at h
        · injection h with h2
          subst h2
          exact Or.inl hz
        · injection h with h2
          subst h2
          exact Or.inl hz

theorem parseLines_mem {q : Question} :
    ∀ (ls : List String) (n : Nat), q ∈ parseLines n ls →
      ∃ m line, line ∈ ls ∧ lineRecord m line = some q := by
  intro ls
  induction ls with
  | nil =>
    intro n h
    simp [parseLines] at h
  | cons a t ih =>
    intro n h
    unfold parseLines at h
    split at h
    · next r heq =>
      cases h with
      | head => exact ⟨n, a, List.mem_cons_self a t, heq⟩
      | tail _ hm =>
        obtain ⟨m, line, hl, hr⟩ := ih (n + 1) hm
        exact ⟨m, line, List.mem_cons_of_mem _ hl, hr⟩
    · obtain ⟨m, line, hl, hr⟩ := ih n h
      exact ⟨m, line, List.mem_cons_of_mem _ hl, hr⟩

theorem isSingleAD_pyUpper_ne {s : String} (h : isSingleAD s = true) : pyUpper s ≠ "" := by
  unfold isSingleAD at h
  split at h
  · next c heq =>
    unfold pyUpper
    rw [heq]
    exact mk_cons_ne_empty _ _
  · exact Bool.noConfusion h

theorem mem_bankOf_mcq {qs : List Question} {lev : String} {q : Question}
    (h : q ∈ bankOf qs lev "MCQ") : q.qtype = "MCQ" := by
  have h2 := (List.mem_filter.mp h).2
  have h3 : normType q = "MCQ" := eq_of_beq (Bool.and_eq_true_iff.mp h2).2
  unfold normType at h3
  by_cases hc : q.qtype = "MCQ" ∨ q.qtype = "ESSAY"
  · rw [if_pos hc] at h3
    exact h3
  · rw [if_neg hc] at h3
    exact absurd h3 (by decide)

theorem mem_bankOf_essay {qs : List Question} {lev : String} {q : Question}
    (h : q ∈ bankOf qs lev "ESSAY") : q.qtype ≠ "MCQ" := by
  have h2 := (List.mem_filter.mp h).2
  have h3 : normType q = "ESSAY" := eq_of_beq (Bool.and_eq_true_iff.mp h2).2
  intro hq
  unfold normType at h3
  rw [if_pos (Or.inl hq), hq] at h3
  exact absurd h3 (by decide)

theorem mem_allPool {bank : String → String → List Question} {typ : String} {q : Question}
    (h : q ∈ allPool bank typ) : ∃ lev, q ∈ bank lev typ := by
  simp only [allPool, levelOrder, List.foldr_cons, List.foldr_nil, List.append_nil,
    List.mem_append] at h
  rcases h with h | h | h | h
  exacts [⟨_, h⟩, ⟨_, h⟩, ⟨_, h⟩, ⟨_, h⟩]

theorem mem_allPool_mcq {qs : List Question} {q : Question}
    (h : q ∈ allPool (bankOf qs) "MCQ") : q.qtype = "MCQ" := by
  obtain ⟨lev, hl⟩ := mem_allPool h
  exact mem_bankOf_mcq hl

theorem mem_allPool_essay {qs : List Question} {q : Question}
    (h : q ∈ allPool (bankOf qs) "ESSAY") : q.qtype ≠ "MCQ" := by
  obtain ⟨lev, hl⟩ := mem_allPool h
  exact mem_bankOf_essay hl

theorem mcqCount_le_length (l : List Question) : mcqCount l ≤ l.length :=
  List.countP_le_length _

theorem essayCount_le_length (l : List Question) : essayCount l ≤ l.length :=
  List.countP_le_length _

theorem countStep {M E rm re tM tE : Nat} {sel A B : List Question}
    (hA : ∀ x ∈ A, x.qtype = "MCQ") (hB : ∀ x ∈ B, x.qtype ≠ "MCQ")
    (hAl : A.length ≤ tM) (hBl : B.length ≤ tE)
    (htM : tM ≤ rm) (htE : tE ≤ re)
    (h1 : mcqCount sel + rm ≤ M) (h2 : essayCount sel + re ≤ E) :
    mcqCount (sel ++ A ++ B) + (rm - tM) ≤ M ∧
    essayCount (sel ++ A ++ B) + (re - tE) ≤ E := by
  have hmA : mcqCount A ≤ tM := le_trans (mcqCount_le_length A) hAl
  have heB : essayCount B ≤ tE := le_trans (essayCount_le_length B) hBl
  have heA : essayCount A = 0 := by
    unfold essayCount
    rw [List.countP_eq_zero]
    intro x hx
    simp [hA x hx]
  have hmB : mcqCount B = 0 := by
    unfold mcqCount
    rw [List.countP_eq_zero]
    intro x hx
    simp only [beq_iff_eq]
    exact hB x hx
  have e1 : mcqCount (sel ++ A ++ B) = mcqCount sel + mcqCount A + mcqCount B := by
    unfold mcqCount
    rw [List.countP_append, List.countP_append]
  have e2 : essayCount (sel ++ A ++ B) = essayCount sel + essayCount A + essayCount B := by
    unfold essayCount
    rw [List.countP_append, List.countP_append]
  constructor
  · rw [e1, hmB]
    omega
  · rw [e2, heA]
    omega

theorem countFinal {M E rm re : Nat} {sel A B : List Question}
    (hA : ∀ x ∈ A, x.qtype = "MCQ") (hB : ∀ x ∈ B, x.qtype ≠ "MCQ")
    (hAl : A.length ≤ rm) (hBl : B.length ≤ re)
    (h1 : mcqCount sel + rm ≤ M) (h2 : essayCount sel + re ≤ E) :
    mcqCount (sel ++ A ++ B) ≤ M ∧ essayCount (sel ++ A ++ B) ≤ E := by
  have h := countStep hA hB hAl hBl (le_refl rm) (le_refl re) h1 h2
  omega

theorem allocLevel_inv {qs : List Question} {sh : Shuffler} (hsh : IsShuffler sh)
    {reqLevel : String → Nat} {M E : Nat} {st : GenState} {lev : String}
    (h : QuotaInv M E st) : QuotaInv M E (allocLevel (bankOf qs) sh reqLevel st lev) := by
  simp only [allocLevel]
  split
  · exact h
  · refine countStep ?_ ?_ ?_ ?_ ?_ ?_ h.1 h.2
    · intro x hx
      exact mem_bankOf_mcq ((hsh _ _).mem_iff.mp (List.mem_of_mem_take hx))
    · intro x hx
      exact mem_bankOf_essay ((hsh _ _).mem_iff.mp (List.mem_of_mem_take hx))
    · exact List.length_take_le _ _
    · exact List.length_take_le _ _
    · omega
    · omega

theorem foldl_alloc_inv {qs : List Question} {sh : Shuffler} (hsh : IsShuffler sh)
    {reqLevel : String → Nat} {M E : Nat} :
    ∀ (ls : List String) (st : GenState), QuotaInv M E st →
      QuotaInv M E (ls.foldl (allocLevel (bankOf qs) sh reqLevel) st) := by
  intro ls
  induction ls with
  | nil =>
    intro st h
    exact h
  | cons a t ih =>
    intro st h
    exact ih _ (allocLevel_inv hsh h)

theorem genOne_bounds {qs : List Question} {sh : Shuffler} (hsh : IsShuffler sh)
    (reqLevel : String → Nat) (M E c : Nat) :
    mcqCount (genOne (bankOf qs) sh reqLevel M E c).1 ≤ M ∧
    essayCount (genOne (bankOf qs) sh reqLevel M E c).1 ≤ E := by
  have h0 : QuotaInv M E (⟨[], M, E, c⟩ : GenState) :=
    ⟨by simp [mcqCount], by simp [essayCount]⟩
  have hst := @foldl_alloc_inv qs sh hsh reqLevel M E levelOrder (⟨[], M, E, c⟩ : GenState) h0
  set st := levelOrder.foldl (allocLevel (bankOf qs) sh reqLevel) (⟨[], M, E, c⟩ : GenState)
    with hstd
  have hA : ∀ x ∈ (sh st.ctr (allPool (bankOf qs) "MCQ")).take st.remainMcq,
      x.qtype = "MCQ" := fun x hx =>
    mem_allPool_mcq ((hsh _ _).mem_iff.mp (List.mem_of_mem_take hx))
  have hB : ∀ x ∈ (sh (st.ctr + 1) (allPool (bankOf qs) "ESSAY")).take st.remainEssay,
      x.qtype ≠ "MCQ" := fun x hx =>
    mem_allPool_essay ((hsh _ _).mem_iff.mp (List.mem_of_mem_take hx))
  have hfin := countFinal hA hB (List.length_take_le _ _) (List.length_take_le _ _) hst.1 hst.2
  have hm : mcqCount (sh (st.ctr + 2) (st.selected
        ++ (sh st.ctr (allPool (bankOf qs) "MCQ")).take st.remainMcq
        ++ (sh (st.ctr + 1) (allPool (bankOf qs) "ESSAY")).take st.remainEssay))
      = mcqCount (st.selected
        ++ (sh st.ctr (allPool (bankOf qs) "MCQ")).take st.remainMcq
        ++ (sh (st.ctr + 1) (allPool (bankOf qs) "ESSAY")).take st.remainEssay) := by
    unfold mcqCount
    exact (hsh _ _).countP_eq _
  have he : essayCount (sh (st.ctr + 2) (st.selected
        ++ (sh st.ctr (allPool (bankOf qs) "MCQ")).take st.remainMcq
        ++ (sh (st.ctr + 1) (allPool (bankOf qs) "ESSAY")).take st.remainEssay))
      = essayCount (st.selected
        ++ (sh st.ctr (allPool (bankOf qs) "MCQ")).take st.remainMcq
        ++ (sh (st.ctr + 1) (allPool (bankOf qs) "ESSAY")).take st.remainEssay) := by
    unfold essayCount
    exact (hsh _ _).countP_eq _
  constructor
  · show mcqCount (sh (st.ctr + 2) (st.selected
        ++ (sh st.ctr (allPool (bankOf qs) "MCQ")).take st.remainMcq
        ++ (sh (st.ctr + 1) (allPool (bankOf qs) "ESSAY")).take st.remainEssay)) ≤ M
    rw [hm]
    exact hfin.1
  · show essayCount (sh (st.ctr + 2) (st.selected
        ++ (sh st.ctr (allPool (bankOf qs) "MCQ")).take st.remainMcq
        ++ (sh (st.ctr + 1) (allPool (bankOf qs) "ESSAY")).take st.remainEssay)) ≤ E
    rw [he]
    exact hfin.2

theorem mem_genManyAux {bank : String → String → List Question} {sh : Shuffler}
    {reqLevel : String → Nat} {M E : Nat} :
    ∀ (n c : Nat) (v : List Question), v ∈ genManyAux bank sh reqLevel M E n c →
      ∃ c0, v = (genOne bank sh reqLevel M E c0).1 := by
  intro n
  induction n with
  | zero =>
    intro c v hv
    simp [genManyAux] at hv
  | succ k ih =>
    intro c v hv
    unfold genManyAux at hv
    cases hv with
    | head => exact ⟨c, rfl⟩
    | tail _ hm => exact ih _ _ hm

/-! ## Claim theorems -/

/-- C1: refuted on the code — the backfill pass draws from the union of all
records, including ones already taken by the per-level pass, so a single
version can contain the same record twice.  With shuffles that leave every
list unchanged (a possible outcome of `random.shuffle`), the two-record bank
`[qA, qB]` with per-level quota NB = 1, mcqQuota = 2, essayQuota = 0 yields
the version `[qA, qA]`. -/
theorem C1_duplicate_within_version :
    IsShuffler idShuffler ∧
    generate_versions [qA, qB] 1 reqLevelNB1 2 0 idShuffler = [[qA, qA]] ∧
    qA ≠ qB :=
  ⟨fun _ _ => List.Perm.refl _, by decide, by decide⟩

/-- C2 (counterexample): the parser does not normalise the level token —
the line `Q1|XX|MCQ|M|Body?` parses to a record whose level is the raw
upper-cased token `XX`, outside the closed set. -/
theorem C2_raw_level_escapes :
    ¬ (∀ r ∈ read_questions_from_file (Except.ok "Q1|XX|MCQ|M|Body?"),
        r.level = "NB" ∨ r.level = "TH" ∨ r.level = "VD" ∨ r.level = "VDH") := by
  decide

/-- C2 (amended): every record produced by the parser has its type in the
closed set `{MCQ, ESSAY}`, for every input; the level field is the raw
upper-cased stripped token and is mapped to NB only later, inside
`generate_versions`. -/
theorem C2_type_closed (input : Except String String) (r : Question)
    (hr : r ∈ read_questions_from_file input) :
    r.qtype = "MCQ" ∨ r.qtype = "ESSAY" := by
  match input with
  | Except.error e => simp [read_questions_from_file] at hr
  | Except.ok content =>
    obtain ⟨m, line, _, hrec⟩ := parseLines_mem (prepLines content) 0 hr
    exact lineRecord_qtype hrec

/-- C2 witness: the amended theorem applied to the record parsed from
`Q7|NB|MCQ|M|Hi`. -/
theorem C2_type_closed_witness : qW.qtype = "MCQ" ∨ qW.qtype = "ESSAY" :=
  C2_type_closed (Except.ok "Q7|NB|MCQ|M|Hi") qW (by decide)

/-- C3 (counterexample): an I/O failure and an empty readable file produce
the identical return value, so the caller cannot tell them apart from the
result. -/
theorem C3_error_empty_indistinguishable :
    read_questions_from_file (Except.error "No such file or directory") =
      read_questions_from_file (Except.ok "") := rfl

/-- C3 (amended): a read failure is reported only through a message-box /
print side effect; the function's return value is the empty list, the same
value an empty bank yields. -/
theorem C3_error_returns_empty (e : String) :
    read_questions_from_file (Except.error e) = [] ∧
    read_questions_from_file (Except.ok "") = [] :=
  ⟨rfl, rfl⟩

/-- C4: every exam version returned by `generate_versions` contains at most
`reqMcq` entries of type MCQ and at most `reqEssay` entries of type ESSAY,
for every bank, every quota configuration and every shuffle outcome. -/
theorem C4_quota_bounds (qs : List Question) (sh : Shuffler) (hsh : IsShuffler sh)
    (reqLevel : String → Nat) (reqMcq reqEssay N : Nat) (v : List Question)
    (hv : v ∈ generate_versions qs N reqLevel reqMcq reqEssay sh) :
    mcqCount v ≤ reqMcq ∧ essayCount v ≤ reqEssay := by
  unfold generate_versions at hv
  obtain ⟨c0, rfl⟩ := mem_genManyAux N 0 v hv
  exact genOne_bounds hsh reqLevel reqMcq reqEssay c0

/-- C4 witness: the bound evaluated on a 3-record bank with quotas of 2 MCQ
and 1 ESSAY per version. -/
theorem C4_quota_bounds_witness :
    mcqCount [qA, qB, qE] ≤ 2 ∧ essayCount [qA, qB, qE] ≤ 1 :=
  C4_quota_bounds [qA, qB, qE] idShuffler (fun _ _ => List.Perm.refl _)
    (fun _ => 0) 2 1 1 [qA, qB, qE] (by decide)

/-- C5 (counterexample): `clean_opt` does not strip parentheses — the token
`(foo)` comes out unchanged, not as `foo`. -/
theorem C5_paren_not_stripped :
    clean_opt "(foo)" = "(foo)" ∧ clean_opt "(foo)" ≠ "foo" :=
  ⟨by decide, by decide⟩

/-- C5 (amended): the cleaning function trims, strips one layer of
surrounding curly brackets only — a trimmed token starting with a
parenthesis is returned unchanged — and otherwise strips a leading option
label and trims again. -/
theorem C5_cleaning_amended :
    (∀ s : String, pyStrip s = s → s.data.head? = some '(' → clean_opt s = s) ∧
    clean_opt "  {B. foo}  " = "foo" ∧ clean_opt "A. x" = "x" ∧ clean_opt "c) y" = "y" := by
  refine ⟨?_, by decide, by decide, by decide⟩
  intro s hstrip hhead
  have hne : ¬ (s.data.head? = some lbrace ∧ s.data.getLast? = some rbrace) := by
    intro hcon
    rw [hhead] at hcon
    exact absurd hcon.1 (by decide)
  simp only [clean_opt]
  rw [hstrip, if_neg hne]
  have hsl : stripLeadingLabel s.data = s.data := by
    cases hd : s.data with
    | nil => rfl
    | cons c t =>
      have hc : c = '(' := by
        rw [hd] at hhead
        simpa using hhead
      subst hc
      rfl
  rw [hsl]
  exact hstrip

/-- C5 witness: the amended theorem applied to the parenthesised token
`(bar)`. -/
theorem C5_cleaning_amended_witness : clean_opt "(bar)" = "(bar)" :=
  C5_cleaning_amended.1 "(bar)" (by decide) (by decide)

/-- C6: in the combined-field case a trailing single letter A–D is taken as
the answer (upper-cased) and excluded from the option source, which is then
split on semicolon, pipe or comma, cleaned, and assigned to at most 4 slots;
the spec's example line parses to options `Nucleus/Membrane/Wall/empty` and
answer `B`. -/
theorem C6_combined_field :
    (∀ (tail : List String) (line : String),
      ¬ (tail.length ≥ 4 ∧ (tail.take 4).any (fun s => s != "") = true) →
      tail.isEmpty = false →
      isSingleAD (pyStrip (tail.getLastD "")) = true →
      (mcqTail tail line).1 = fillOpts (split_combined_options (joinSep " | " tail.dropLast)) ∧
      (mcqTail tail line).2.1 = pyUpper (pyStrip (tail.getLastD ""))) ∧
    read_questions_from_file (Except.ok "Q002|TH|MCQ|Bio|Cell has?|Nucleus; Membrane; Wall|B") =
      [⟨"Q002", "TH", "MCQ", "Bio", "Cell has?", ["Nucleus", "Membrane", "Wall", ""], "B", "B"⟩] := by
  refine ⟨?_, by decide⟩
  intro tail line h1 h2 h3
  have hne : pyUpper (pyStrip (tail.getLastD "")) ≠ "" := isSingleAD_pyUpper_ne h3
  simp only [mcqTail]
  rw [if_neg h1, if_neg (by simp [h2])]
  simp only [List.getLastD_eq_getLast?] at h3 hne
  simp [h3, hne]

/-- C6 witness: the general combined-field property instantiated at the
tail of the spec's example line. -/
theorem C6_combined_field_witness :
    (mcqTail ["Nucleus; Membrane; Wall", "B"] "x").1 =
        fillOpts (split_combined_options (joinSep " | "
          (["Nucleus; Membrane; Wall", "B"].dropLast))) ∧
    (mcqTail ["Nucleus; Membrane; Wall", "B"] "x").2.1 =
        pyUpper (pyStrip (["Nucleus; Membrane; Wall", "B"].getLastD "")) :=
  C6_combined_field.1 ["Nucleus; Membrane; Wall", "B"] "x" (by decide) (by decide) (by decide)

/-- C7: in the explicit four-field case the first four tail parts (each
cleaned) become the options, a non-blank 5th part (stripped) the answer, and
the remaining parts joined the hint; the spec's example line parses to
id `Q001`, level `NB`, type `MCQ`, options `4/3/5/6`, answer `A`. -/
theorem C7_explicit_four_field :
    (∀ (tail : List String) (line : String),
      tail.length ≥ 4 → (tail.take 4).any (fun s => s != "") = true →
      mcqTail tail line =
        ((tail.take 4).map clean_opt,
         if tail.length ≥ 5 ∧ pyStrip (tail.getD 4 "") ≠ "" then pyStrip (tail.getD 4 "") else "",
         if tail.length ≥ 6 then pyStrip (joinSep " " (tail.drop 5)) else "")) ∧
    read_questions_from_file (Except.ok "Q001|NB|MCQ|Math|2+2=?|4|3|5|6|A") =
      [⟨"Q001", "NB", "MCQ", "Math", "2+2=?", ["4", "3", "5", "6"], "A", ""⟩] := by
  refine ⟨?_, by decide⟩
  intro tail line h1 h2
  unfold mcqTail
  rw [if_pos ⟨h1, h2⟩]

/-- C7 witness: the general explicit-four-field property instantiated at the
tail of the spec's example line. -/
theorem C7_explicit_four_field_witness :
    mcqTail ["4", "3", "5", "6", "A"] "x" = (["4", "3", "5", "6"], "A", "") := by
  rw [C7_explicit_four_field.1 ["4", "3", "5", "6", "A"] "x" (by decide) (by decide)]
  decide

/-- C8 (counterexample): a structured line whose first field is blank parses
to a record whose id is the empty string. -/
theorem C8_empty_id_possible :
    ¬ (∀ r ∈ read_questions_from_file (Except.ok "|NB|MCQ|M|Body?"), r.id ≠ "") := by
  decide

/-- C8 (amended): a parsed record has a non-empty id unless some source line
has a blank first separator field; in particular manual records always carry
the non-empty synthesized MANUAL id. -/
theorem C8_id_amended (content : String) (r : Question)
    (hr : r ∈ read_questions_from_file (Except.ok content)) :
    r.id ≠ "" ∨ ∃ line, line ∈ prepLines content ∧
      pyStrip ((splitOnChar '|' line).getD 0 "") = "" := by
  obtain ⟨m, line, hl, hrec⟩ := parseLines_mem (prepLines content) 0 hr
  rcases lineRecord_id hrec with h | h
  · exact Or.inl h
  · exact Or.inr ⟨line, hl, h⟩

/-- C8 witness: the amended theorem applied to the manual line `(NB) Hi`,
whose record carries the synthesized id `MANUAL001`. -/
theorem C8_id_amended_witness :
    rW.id ≠ "" ∨ ∃ line, line ∈ prepLines "(NB) Hi" ∧
      pyStrip ((splitOnChar '|' line).getD 0 "") = "" :=
  C8_id_amended "(NB) Hi" rW (by decide)

/-- C9 (counterexample): the separator-free manual line `(NB) Hello` splits
into a single field — fewer than 5 — yet contributes a record through the
manual fallback. -/
theorem C9_manual_line_contributes :
    (splitOnChar '|' "(NB) Hello").length < 5 ∧
    read_questions_from_file (Except.ok "(NB) Hello") ≠ [] := by
  decide

/-- C9 (amended): a line that starts with `Q` or contains the separator and
splits into fewer than 5 fields never contributes a record. -/
theorem C9_short_line_skipped (n : Nat) (line : String)
    (hq : strStartsWith "Q" line = true ∨ line.data.contains '|' = true)
    (hlen : (splitOnChar '|' line).length < 5) :
    lineRecord n line = none := by
  unfold lineRecord
  rw [if_neg]
  · simp only [structuredRecord]
    rw [if_pos hlen]
  · rintro ⟨hq1, hq2⟩
    rcases hq with h | h
    · rw [h] at hq1
      exact Bool.noConfusion hq1
    · rw [h] at hq2
      exact Bool.noConfusion hq2

/-- C9 witness: the amended theorem applied to a 3-field structured line. -/
theorem C9_short_line_skipped_witness : lineRecord 0 "Q1|a|b" = none :=
  C9_short_line_skipped 0 "Q1|a|b" (Or.inl (by decide)) (by decide)

/-- C10: when an MCQ record's four option slots are all empty,
`format_question` emits neither option lines nor an answer line — even with
`show_answers` on and a non-empty answer — leaving only the header and the
optional hint line. -/
theorem C10_all_empty_options (q : Question) (i : Nat) (sa sh : Bool)
    (_ht : q.qtype = "MCQ") (ho : ∀ o ∈ q.options, o = "") :
    formatLines q i sa sh =
      ("Câu " ++ toString i ++ ": [" ++ q.level ++ "] " ++ q.question) ::
        (if sh = true ∧ q.hint ≠ "" then ["  Gợi ý: " ++ q.hint] else []) := by
  have hany : q.options.any (fun s => s != "") = false := by
    rw [List.any_eq_false]
    intro x hx
    simp [ho x hx]
  simp only [formatLines]
  rw [if_neg (fun hcon => by rw [hany] at hcon; exact Bool.noConfusion hcon.2)]
  rw [List.nil_append]

/-- C10 witness: the theorem applied to a record with all-empty options,
answer `A`, and `show_answers = true`. -/
theorem C10_all_empty_options_witness :
    formatLines qX 1 true false = ["Câu 1: [NB] Body?"] := by
  rw [C10_all_empty_options qX 1 true false rfl (by decide)]
  decide
